import Mathlib

/-!
Shallow embedding of the gitweb syntax-highlighting microlibrary.

The repository contains four historical variants of the same script; the
embedding tags definitions with the variant they come from:

* v1: the variant in src/syntax.js (tables VALID_FILE_TYPES,
  VALID_FILE_TYPE_SYNONYMS, VALID_FILE_TYPE_ASSOCS; no shebang support).
* v2: the variant in src/unnamed/part_001 (adds shebang detection through
  VALID_LANG_NAMES and VALID_LANG_ASSOC_FILE_TYPES).
* v3: the middle variant in src/unnamed/part_000 (tables
  LANG_PRIMARY_FILE_TYPES etc.; its isFileTypeValid passes the object
  LANG_PRIMARY_FILE_TYPES to Utils.inArray, whose isArray guard throws).
* v4: the variant in src/unnamed/part_002 (same tables as v3; its
  getExecutableType reads the undeclared identifier LANG_NAMES).

JavaScript values that can be a string, null or undefined are modelled as
Option String (none stands for both null and undefined: in every modelled
operation the two behave identically, namely as a missing key or a value
that is in no string array).  Thrown JavaScript exceptions are modelled
with Except JSErr.  Pure fragments that provably cannot throw are modelled
directly as functions.
-/

/-- Kinds of exception the scripts can raise: the explicit TypeErrors thrown
by the Utils guards, and the ReferenceError raised by reading an undeclared
identifier in strict mode. -/
inductive JSErr where
  | typeError
  | referenceError
deriving DecidableEq

deriving instance DecidableEq for Except

/-- Fuel-driven worker for jsSplit.  The fuel starts at the length of the
string being split, which is enough because every step consumes at least
one character. -/
def jsSplitAux (sep : List Char) : Nat → List Char → List (List Char)
  | _, [] => [[]]
  | 0, s => [s]
  | fuel + 1, c :: rest =>
    if sep.isPrefixOf (c :: rest) && !sep.isEmpty then
      [] :: jsSplitAux sep fuel (List.drop (sep.length - 1) rest)
    else
      match jsSplitAux sep fuel rest with
      | [] => [[c]]
      | t :: ts => (c :: t) :: ts

/-- JavaScript String.prototype.split with a non-empty literal separator,
on lists of characters: left-to-right, non-overlapping, keeping empty
segments.  (The scripts never split on the empty string: Utils.toArray
only defaults its separator when the caller passes a falsy one, and every
modelled call site passes a non-empty literal.) -/
def jsSplit (sep s : List Char) : List (List Char) :=
  jsSplitAux sep s.length s

/-- String-level wrapper for jsSplit, mirroring Utils.toArray applied to a
string value with a non-empty string separator. -/
def splitS (sep s : String) : List String :=
  (jsSplit sep.toList s.toList).map (fun cs => String.mk cs)

/-- JavaScript split on the regular expression matching one whitespace
character, as used by getExecutableType; the \s class is modelled by
Char.isWhitespace. -/
def jsSplitWs : List Char → List (List Char)
  | [] => [[]]
  | c :: rest =>
    if c.isWhitespace then
      [] :: jsSplitWs rest
    else
      match jsSplitWs rest with
      | [] => [[c]]
      | t :: ts => (c :: t) :: ts

/-- String-level wrapper for jsSplitWs. -/
def splitWsS (s : String) : List String :=
  (jsSplitWs s.toList).map (fun cs => String.mk cs)

/-- A JavaScript array-or-object value as passed to Utils.inArray; the
object payload is a string-to-string record, which is the shape of
LANG_PRIMARY_FILE_TYPES. -/
inductive JSColl where
  | arr : List String → JSColl
  | obj : List (String × String) → JSColl

/-- Utils.inArray: indexOf on arrays, and a thrown TypeError when the
haystack fails the isArray guard (part_000 lines 182 to 187 and the
corresponding guard in the other variants). -/
def inArrayJS (needle : String) : JSColl → Except JSErr Bool
  | .arr xs => .ok (xs.contains needle)
  | .obj _ => .error .typeError

/-- Object key list, as Object.keys on a table literal (declaration order). -/
def tableKeys {α : Type} (table : List (String × α)) : List String :=
  table.map Prod.fst

/-- Object property read table[k]: first binding wins, a missing key reads
as undefined (none). -/
def tableGet {α : Type} (table : List (String × α)) (k : String) : Option α :=
  match table with
  | [] => none
  | (k₀, v₀) :: rest => if k == k₀ then some v₀ else tableGet rest k

/-- The getPrimaryFileType loop, generic in the synonym table: scan the
keys in declaration order and return the first key whose synonym array
contains the file type, else null. -/
def synPrimary (table : List (String × List String)) (fileType : String) : Option String :=
  match table with
  | [] => none
  | (k, syns) :: rest => if syns.contains fileType then some k else synPrimary rest fileType

/-- The isFileTypeSynonym loop, generic in the synonym table: true exactly
when some synonym array contains the file type. -/
def synIsSynonym (table : List (String × List String)) (fileType : String) : Bool :=
  match table with
  | [] => false
  | (_, syns) :: rest => if syns.contains fileType then true else synIsSynonym rest fileType

/-- The getFileTypeAssocs body, generic in the association table and lifted
to a possibly null-or-undefined argument: push the argument, and when it is
a key of the table append the associated types in declared order.  A null
or undefined argument is not a key, so the result is the singleton list
holding it. -/
def assocExpandJS (table : List (String × List String)) (fileType : Option String) :
    List (Option String) :=
  match fileType with
  | none => [none]
  | some s =>
    if (tableKeys table).contains s then
      some s :: ((tableGet table s).getD []).map some
    else
      [some s]

/-! ## v1: src/syntax.js -/

/-- VALID_FILE_TYPES, src/syntax.js lines 11 to 17. -/
def VALID_FILE_TYPES_v1 : List String :=
  ["c", "css", "js", "htaccess", "html", "json", "md", "php", "pl", "py", "rb", "sh", "xml", "xslt"]

/-- VALID_FILE_TYPE_SYNONYMS, src/syntax.js lines 19 to 26. -/
def VALID_FILE_TYPE_SYNONYMS_v1 : List (String × List String) :=
  [("c", ["cpp", "h"]),
   ("html", ["htm", "dhtml", "xhtml"]),
   ("js", ["jse", "json"]),
   ("pl", ["cgi", "perl"]),
   ("php", ["php5", "phtml"]),
   ("rb", ["erb"])]

/-- VALID_FILE_TYPE_ASSOCS, src/syntax.js lines 28 to 32. -/
def VALID_FILE_TYPE_ASSOCS_v1 : List (String × List String) :=
  [("html", ["css", "js", "php"]),
   ("json", ["js"]),
   ("php", ["css", "html", "js"])]

/-- isFileBlob, src/syntax.js lines 51 to 61 (identical logic in the other
variants): split the query string on the blob marker and test whether the
last index of the result, in the sense of Utils.getLastIndex, is nonzero. -/
def isFileBlob (queryString : String) : Bool :=
  let splitQueryString := splitS ";a=blob" queryString
  let isBlob := if splitQueryString.length > 0 then splitQueryString.length - 1 else 0
  isBlob != 0

/-- getPrimaryFileType, src/syntax.js lines 81 to 96. -/
def getPrimaryFileType_v1 (fileType : String) : Option String :=
  synPrimary VALID_FILE_TYPE_SYNONYMS_v1 fileType

/-- isFileTypeSynonym, src/syntax.js lines 98 to 113. -/
def isFileTypeSynonym_v1 (fileType : String) : Bool :=
  synIsSynonym VALID_FILE_TYPE_SYNONYMS_v1 fileType

/-- getFileTypeAssocs, src/syntax.js lines 63 to 79. -/
def getFileTypeAssocs_v1 (fileType : Option String) : List (Option String) :=
  assocExpandJS VALID_FILE_TYPE_ASSOCS_v1 fileType

/-- The file-type token extraction shared verbatim by every variant of
highlightSyntax: split on the file parameter marker (returning none when it
is absent, the early-return branch), take the field before the next
semicolon, its last slash-separated segment, and the last dot-separated
piece of that segment. -/
def extFileType (queryString : String) : Option String :=
  let queryParams := splitS ";f=" queryString
  if queryParams.length ≤ 1 then none
  else
    let pathName := (splitS ";" (queryParams.getD 1 "")).getD 0 ""
    let splitPathName := splitS "/" pathName
    let fileName := splitPathName.getLastD ""
    let splitFileName := splitS "." fileName
    some (splitFileName.getLastD "")

/-- highlightSyntax, src/syntax.js lines 115 to 165, up to the value handed
to the highlighter configuration: none models the void early returns, and
the payload is the languages array (whose entries can be null, hence
Option String). -/
def highlightSyntax_v1 (queryString : String) : Option (List (Option String)) :=
  match extFileType queryString with
  | none => none
  | some fileType =>
    let isValidFileType := VALID_FILE_TYPES_v1.contains fileType || isFileTypeSynonym_v1 fileType
    if !isValidFileType then none
    else
      let fileType2 : Option String :=
        if !(VALID_FILE_TYPES_v1.contains fileType) then getPrimaryFileType_v1 fileType
        else some fileType
      some (getFileTypeAssocs_v1 fileType2)

/-- The token-level extension lookup performed by highlightSyntax in
src/syntax.js lines 136 and 143: a token that is itself a valid file type
is kept, otherwise the synonym table is consulted. -/
def resolveToken_v1 (tok : String) : Option String :=
  if VALID_FILE_TYPES_v1.contains tok then some tok else getPrimaryFileType_v1 tok

/-- The extension-resolution half of the v1 pipeline as one function from
the page identifier: token extraction followed by the token lookup. -/
def resolveFromPath_v1 (queryString : String) : Option String :=
  (extFileType queryString).bind resolveToken_v1

/-! ## v2: src/unnamed/part_001 -/

/-- VALID_FILE_TYPES, part_001 lines 12 to 28. -/
def VALID_FILE_TYPES_v2 : List String :=
  ["c", "css", "js", "go", "htaccess", "html", "json", "md", "php", "pl", "py", "rb", "sh", "xml", "xslt"]

/-- VALID_FILE_TYPE_SYNONYMS, part_001 lines 30 to 38. -/
def VALID_FILE_TYPE_SYNONYMS_v2 : List (String × List String) :=
  [("c", ["cpp", "h"]),
   ("html", ["htm", "dhtml", "xhtml"]),
   ("js", ["jse", "json"]),
   ("pl", ["cgi", "perl"]),
   ("php", ["php5", "phar", "phtml"]),
   ("py", ["pyc"]),
   ("rb", ["erb"])]

/-- VALID_FILE_TYPE_ASSOCS, part_001 lines 40 to 44. -/
def VALID_FILE_TYPE_ASSOCS_v2 : List (String × List String) :=
  [("html", ["css", "js", "php"]),
   ("json", ["js"]),
   ("php", ["css", "html", "js"])]

/-- VALID_LANG_NAMES, part_001 lines 45 to 59. -/
def VALID_LANG_NAMES : List String :=
  ["bash", "c", "cpp", "css", "javascript", "go", "html", "markdown", "php", "perl", "python",
   "ruby", "xml"]

/-- VALID_LANG_ASSOC_FILE_TYPES, part_001 lines 60 to 67. -/
def VALID_LANG_ASSOC_FILE_TYPES : List (String × String) :=
  [("bash", "sh"), ("perl", "pl"), ("php", "php"), ("python", "py"), ("ruby", "rb"), ("sh", "sh")]

/-- getPrimaryFileType, part_001 lines 237 to 251. -/
def getPrimaryFileType_v2 (fileType : String) : Option String :=
  synPrimary VALID_FILE_TYPE_SYNONYMS_v2 fileType

/-- isFileTypeSynonym, part_001 lines 254 to 269. -/
def isFileTypeSynonym_v2 (fileType : String) : Bool :=
  synIsSynonym VALID_FILE_TYPE_SYNONYMS_v2 fileType

/-- getFileTypeAssocs, part_001 lines 219 to 234. -/
def getFileTypeAssocs_v2 (fileType : Option String) : List (Option String) :=
  assocExpandJS VALID_FILE_TYPE_ASSOCS_v2 fileType

/-- isExecutable, part_001 lines 301 to 307, as a function of the text of
the first source line: true when the text contains the shebang marker,
computed as a nonzero last index of the split on the marker. -/
def isExecutable (fslocText : String) : Bool :=
  let parts := splitS "#!" fslocText
  (if parts.length > 0 then parts.length - 1 else 0) != 0

/-- getExecutableType, part_001 lines 272 to 298, as a function of the text
of the first source line.  When the text has no marker, the index [1] of
the split is undefined and Utils.toArray throws a TypeError; the function
is only ever called behind an isExecutable guard. -/
def getExecutableType_v2 (fslocText : String) : Except JSErr (Option String) :=
  match (splitS "#!" fslocText).get? 1 with
  | none => .error .typeError
  | some targetPath =>
    let components := splitS "/" targetPath
    let executable := components.getLastD ""
    let flagOptions := splitWsS executable
    let hasOptions := (if flagOptions.length > 0 then flagOptions.length - 1 else 0) != 0
    .ok (if !hasOptions && VALID_LANG_NAMES.contains executable then some executable
         else if hasOptions && VALID_LANG_NAMES.contains (flagOptions.getD 0 "") then
           some (flagOptions.getD 0 "")
         else if hasOptions && VALID_LANG_NAMES.contains (flagOptions.getD 1 "") then
           some (flagOptions.getD 1 "")
         else none)

/-- The shebang resolution as the v2 call sites perform it: getExecutableType
guarded by isExecutable (part_001 lines 318 and 343; the guard makes the
TypeError branch unreachable, so the guarded combination is pure).  Returns
the interpreter language name, or none when the marker is absent or the
interpreter is unrecognized. -/
def resolveFromShebang_v2 (fslocText : String) : Option String :=
  if isExecutable fslocText then
    match getExecutableType_v2 fslocText with
    | .ok r => r
    | .error _ => none
  else none

/-- The canonical file type determined by the shebang in v2: the language
name produced by the guarded getExecutableType, pushed through the
VALID_LANG_ASSOC_FILE_TYPES record as in part_001 line 344 (a null name or
a name that is not a key reads as undefined). -/
def shebangCanonical_v2 (fslocText : String) : Option String :=
  (resolveFromShebang_v2 fslocText).bind (tableGet VALID_LANG_ASSOC_FILE_TYPES)

/-- isFileTypeValid, part_001 lines 310 to 322: valid when the token is a
known file type, or a synonym, or the page content carries a shebang whose
interpreter is recognized. -/
def isFileTypeValid_v2 (fileType fslocText : String) : Bool :=
  VALID_FILE_TYPES_v2.contains fileType ||
    isFileTypeSynonym_v2 fileType ||
    (isExecutable fslocText && (resolveFromShebang_v2 fslocText).isSome)

/-- The file type computed by highlightSyntax in part_001 lines 325 to 347
and handed to getFileTypeAssocs: the outer none models the void early
returns (no file parameter, or invalid type), the inner Option String is
the JavaScript value of the fileType variable after the conditional
reassignment (undefined when the shebang branch indexes the record with a
null or unmapped interpreter name). -/
def finalFileType_v2 (queryString fslocText : String) : Option (Option String) :=
  match extFileType queryString with
  | none => none
  | some fileType =>
    if !(isFileTypeValid_v2 fileType fslocText) then none
    else
      some (if isExecutable fslocText then
              (resolveFromShebang_v2 fslocText).bind (tableGet VALID_LANG_ASSOC_FILE_TYPES)
            else if !(VALID_FILE_TYPES_v2.contains fileType) then getPrimaryFileType_v2 fileType
            else some fileType)

/-- highlightSyntax, part_001 lines 325 to 367, up to the languages array
handed to the highlighter configuration. -/
def highlightSyntax_v2 (queryString fslocText : String) : Option (List (Option String)) :=
  (finalFileType_v2 queryString fslocText).map getFileTypeAssocs_v2

/-- The token-level extension lookup of the v2 pipeline (part_001 lines
345 to 347). -/
def resolveToken_v2 (tok : String) : Option String :=
  if VALID_FILE_TYPES_v2.contains tok then some tok else getPrimaryFileType_v2 tok

/-- The extension-resolution half of the v2 pipeline as one function from
the page identifier. -/
def resolveFromPath_v2 (queryString : String) : Option String :=
  (extFileType queryString).bind resolveToken_v2

/-! ## v3 and v4: src/unnamed/part_000 (middle variant) and src/unnamed/part_002 -/

/-- LANG_PRIMARY_FILE_TYPES, part_002 lines 36 to 54 (identical in the
part_000 variants). -/
def LANG_PRIMARY_FILE_TYPES : List (String × String) :=
  [("bash", "sh"), ("c", "c"), ("cpp", "cpp"), ("cs", "cs"), ("css", "css"),
   ("javascript", "js"), ("go", "go"), ("html", "html"), ("markdown", "md"), ("php", "php"),
   ("perl", "pl"), ("python", "py"), ("ruby", "rb"), ("sql", "sql"), ("typescript", "ts"),
   ("xml", "xml"), ("yaml", "yml")]

/-- LANG_FILE_TYPE_SYNONYMS, part_002 lines 61 to 71 (identical in the
part_000 variants). -/
def LANG_FILE_TYPE_SYNONYMS : List (String × List String) :=
  [("bash", ["bash", "csh", "ksh", "zsh"]),
   ("c", ["h"]),
   ("html", ["htm", "dhtml", "xhtml"]),
   ("javascript", ["jse", "json"]),
   ("markdown", ["markdown"]),
   ("perl", ["cgi", "perl"]),
   ("php", ["php5", "phar", "phtml"]),
   ("python", ["pyc"]),
   ("ruby", ["erb"])]

/-- FILE_TYPE_ASSOCIATIONS, part_002 lines 79 to 84 (named FILE_TYPE_ASSOCS
in the part_000 variants, same content). -/
def FILE_TYPE_ASSOCIATIONS : List (String × List String) :=
  [("html", ["css", "js", "php"]),
   ("json", ["js"]),
   ("javascript", ["css", "html", "json", "php"]),
   ("php", ["css", "html", "js"])]

/-- EXEC_LANG_FILE_TYPES, part_002 lines 107 to 114. -/
def EXEC_LANG_FILE_TYPES : List (String × String) :=
  [("bash", "bash"), ("perl", "pl"), ("php", "php"), ("python", "py"), ("ruby", "rb"),
   ("sh", "bash")]

/-- The identifier LANG_NAMES read by getExecutableType in part_002 lines
482, 495 and 508 (and in the part_000 variants).  No declaration of
LANG_NAMES exists anywhere in those files: the declared array is
EXEC_LANG_NAMES, which is never used.  Reading an undeclared identifier in
strict-mode JavaScript throws a ReferenceError, so the read is modelled as
that error. -/
def LANG_NAMES : Except JSErr (List String) :=
  .error .referenceError

/-- Short-circuiting JavaScript conjunction whose right operand may throw
when evaluated. -/
def jsAnd (b : Bool) (rhs : Except JSErr Bool) : Except JSErr Bool :=
  if b then rhs else .ok false

/-- getPrimaryFileType, part_002 lines 409 to 434. -/
def getPrimaryFileType_v4 (fileType : String) : Option String :=
  synPrimary LANG_FILE_TYPE_SYNONYMS fileType

/-- isSynonymFileType, part_002 lines 442 to 460 (isFileTypeSynonym in the
part_000 variants, same logic and table). -/
def isSynonymFileType_v4 (fileType : String) : Bool :=
  synIsSynonym LANG_FILE_TYPE_SYNONYMS fileType

/-- getFileTypeAssocations, part_002 lines 379 to 401. -/
def getFileTypeAssocations_v4 (fileType : Option String) : List (Option String) :=
  assocExpandJS FILE_TYPE_ASSOCIATIONS fileType

/-- getExecutableType, part_002 lines 467 to 513, as a function of the text
of the first source line.  Each of its three conditions evaluates the
undeclared identifier LANG_NAMES as the inArray haystack argument, after
the short-circuit on hasOptions; with the marker present, at least one of
the first two conditions reaches that read, so the call always throws. -/
def getExecutableType_v4 (fslocText : String) : Except JSErr (Option String) :=
  match (splitS "#!" fslocText).get? 1 with
  | none => .error .typeError
  | some targetPath =>
    let components := splitS "/" targetPath
    let executable := components.getLastD ""
    let flagOptions := splitWsS executable
    let hasOptions := (if flagOptions.length > 0 then flagOptions.length - 1 else 0) != 0
    do
      let c1 ← jsAnd (!hasOptions) (do
        let names ← LANG_NAMES
        pure (names.contains executable))
      if c1 then pure (some executable)
      else do
        let c2 ← jsAnd hasOptions (do
          let names ← LANG_NAMES
          pure (names.contains (flagOptions.getD 0 "")))
        if c2 then pure (some (flagOptions.getD 0 ""))
        else do
          let c3 ← jsAnd hasOptions (do
            let names ← LANG_NAMES
            pure (names.contains (flagOptions.getD 1 "")))
          if c3 then pure (some (flagOptions.getD 1 "")) else pure none

/-- isFileTypeValid, part_000 lines 360 to 372, as a function of the token
and the first-line text.  Its first test is inArray(fileType,
LANG_PRIMARY_FILE_TYPES): the haystack is an object literal, not an array,
so Utils.inArray throws a TypeError before anything else happens. -/
def isFileTypeValid_v3 (fileType fslocText : String) : Except JSErr Bool := do
  let inTypes ← inArrayJS fileType (.obj LANG_PRIMARY_FILE_TYPES)
  if inTypes then pure true
  else if isSynonymFileType_v4 fileType then pure true
  else if isExecutable fslocText then do
    let r ← getExecutableType_v4 fslocText
    pure r.isSome
  else pure false

/-- isValidFileType, part_002 lines 535 to 547: here the first test uses
Object.keys of LANG_PRIMARY_FILE_TYPES, so only the shebang branch can
throw (through getExecutableType reading LANG_NAMES). -/
def isValidFileType_v4 (fileType fslocText : String) : Except JSErr Bool :=
  if (tableKeys LANG_PRIMARY_FILE_TYPES).contains fileType then .ok true
  else if isSynonymFileType_v4 fileType then .ok true
  else if isExecutable fslocText then do
    let r ← getExecutableType_v4 fslocText
    pure r.isSome
  else .ok false

/-- highlightSyntax, part_002 lines 555 to 615, up to the languages array
handed to the highlighter configuration; ok none models the void early
returns, and a thrown exception propagates as an error. -/
def highlightSyntax_v4 (queryString fslocText : String) :
    Except JSErr (Option (List (Option String))) :=
  match extFileType queryString with
  | none => .ok none
  | some fileType => do
    let valid ← isValidFileType_v4 fileType fslocText
    if !valid then pure none
    else do
      let fileType2 : Option String ←
        if isExecutable fslocText then do
          let r ← getExecutableType_v4 fslocText
          pure (r.bind (tableGet EXEC_LANG_FILE_TYPES))
        else
          pure (if !((tableKeys LANG_PRIMARY_FILE_TYPES).contains fileType) then
                  getPrimaryFileType_v4 fileType
                else some fileType)
      pure (some (getFileTypeAssocations_v4 fileType2))

/-! ## Helper lemmas -/

/-- A JavaScript split never yields an empty array. -/
theorem jsSplitAux_ne_nil (sep : List Char) : ∀ fuel s, jsSplitAux sep fuel s ≠ [] := by
  intro fuel
  induction fuel with
  | zero => intro s; cases s <;> simp [jsSplitAux]
  | succ n ih =>
    intro s
    cases s with
    | nil => simp [jsSplitAux]
    | cons c rest =>
      simp only [jsSplitAux]
      split
      · simp
      · rcases h : jsSplitAux sep n rest with _ | ⟨t, ts⟩ <;> simp [h]

/-- With enough fuel, the split of s on a non-empty separator has more than
one field exactly when the separator occurs in s as a contiguous infix. -/
theorem jsSplitAux_length_gt_one (sep : List Char) (hsep : sep ≠ []) :
    ∀ fuel s, s.length ≤ fuel → (1 < (jsSplitAux sep fuel s).length ↔ sep <:+: s) := by
  intro fuel
  induction fuel with
  | zero =>
    intro s hs
    have hnil : s = [] := List.length_eq_zero.mp (Nat.le_zero.mp hs)
    subst hnil
    simp [jsSplitAux, List.infix_nil, hsep]
  | succ n ih =>
    intro s hs
    cases s with
    | nil => simp [jsSplitAux, List.infix_nil, hsep]
    | cons c rest =>
      have hrest : rest.length ≤ n := Nat.le_of_succ_le_succ (by simpa using hs)
      simp only [jsSplitAux]
      by_cases hpre : (sep.isPrefixOf (c :: rest) && !sep.isEmpty) = true
      · rw [if_pos hpre]
        have hp : sep <+: c :: rest := by
          have h1 : sep.isPrefixOf (c :: rest) = true := by
            cases hh : sep.isPrefixOf (c :: rest)
            · rw [hh] at hpre; simp at hpre
            · rfl
          exact List.isPrefixOf_iff_prefix.mp h1
        have hne := jsSplitAux_ne_nil sep n (List.drop (sep.length - 1) rest)
        have hlen : 0 < (jsSplitAux sep n (List.drop (sep.length - 1) rest)).length :=
          List.length_pos.mpr hne
        constructor
        · intro _; exact hp.isInfix
        · intro _
          simp only [List.length_cons]
          omega
      · rw [if_neg hpre]
        have hnp : ¬ sep <+: c :: rest := by
          intro hp
          apply hpre
          have he : sep.isEmpty = false := by
            cases hsepe : sep.isEmpty
            · rfl
            · exact absurd (List.isEmpty_iff.mp hsepe) hsep
          simp [List.isPrefixOf_iff_prefix.mpr hp, he]
        rcases h : jsSplitAux sep n rest with _ | ⟨t, ts⟩
        · exact absurd h (jsSplitAux_ne_nil sep n rest)
        · have ihr := ih rest hrest
          rw [h] at ihr
          rw [List.infix_cons_iff]
          simp only [List.length_cons] at ihr ⊢
          constructor
          · intro hlt
            exact Or.inr (ihr.mp hlt)
          · intro hor
            rcases hor with hor | hor
            · exact absurd hor hnp
            · exact ihr.mpr hor

/-- The field count of jsSplit detects infix occurrence of the separator. -/
theorem jsSplit_length_gt_one (sep s : List Char) (hsep : sep ≠ []) :
    1 < (jsSplit sep s).length ↔ sep <:+: s :=
  jsSplitAux_length_gt_one sep hsep s.length s (Nat.le_refl _)

/-- A string is empty exactly when its character list is. -/
theorem string_eq_empty_iff (s : String) : s = "" ↔ s.toList = [] := by
  cases s with
  | mk data =>
    constructor
    · intro h; exact congrArg String.toList h
    · intro h
      have hd : data = [] := h
      subst hd
      rfl

/-- The synonym membership test succeeds exactly when the primary lookup on
the same table succeeds: both scan the rows in the same order and test the
same containment. -/
theorem synIsSynonym_eq_isSome (table : List (String × List String)) (t : String) :
    synIsSynonym table t = (synPrimary table t).isSome := by
  induction table with
  | nil => rfl
  | cons p rest ih =>
    cases p with
    | mk k syns =>
      simp only [synIsSynonym, synPrimary]
      by_cases h : t ∈ syns
      · simp [h]
      · simp [h, ih]

/-- A table lookup succeeds exactly when the key list contains the key. -/
theorem tableGet_isSome_eq_contains {α : Type} (table : List (String × α)) (k : String) :
    (tableGet table k).isSome = (tableKeys table).contains k := by
  induction table with
  | nil => rfl
  | cons p rest ih =>
    cases p with
    | mk k₀ v₀ =>
      simp only [tableGet, tableKeys, List.map_cons, List.contains_cons]
      by_cases h : (k == k₀) = true
      · simp [h]
      · simp [h, ih, tableKeys]

/-- Absence of the two-character marker as an infix makes the split on it a
single field, hence isExecutable false. -/
theorem isExecutable_eq_false_of_not_infix (fl : String)
    (h : ¬ ("#!".toList <:+: fl.toList)) : isExecutable fl = false := by
  have hsep : ("#!").toList ≠ ([] : List Char) := by decide
  have hne := jsSplitAux_ne_nil ("#!").toList fl.toList.length fl.toList
  have hpos : 0 < (jsSplit "#!".toList fl.toList).length := List.length_pos.mpr hne
  have hnot : ¬ 1 < (jsSplit "#!".toList fl.toList).length :=
    fun hlt => h ((jsSplit_length_gt_one ("#!").toList fl.toList hsep).mp hlt)
  show ((if (splitS "#!" fl).length > 0 then (splitS "#!" fl).length - 1 else 0) != 0) = false
  simp only [splitS, List.length_map]
  rw [if_pos hpos]
  have hz : (jsSplit "#!".toList fl.toList).length - 1 = 0 := by omega
  rw [hz]
  rfl

/-- The association expansion on a string argument always yields the
argument followed by the looked-up associates (empty when the argument is
not a key). -/
theorem assocExpandJS_some (table : List (String × List String)) (t : String) :
    assocExpandJS table (some t) = some t :: ((tableGet table t).getD []).map some := by
  simp only [assocExpandJS]
  by_cases h : (tableKeys table).contains t = true
  · rw [if_pos h]
  · rw [if_neg h]
    have hnone : tableGet table t = none := by
      rw [← Option.not_isSome_iff_eq_none, tableGet_isSome_eq_contains]
      simpa using h
    rw [hnone]
    rfl

/-- A token accepted by the token-level lookup of the v2 pipeline is a
valid file type, whatever the first line holds. -/
theorem isFileTypeValid_v2_of_resolveToken (ft t fl : String)
    (hres : resolveToken_v2 ft = some t) : isFileTypeValid_v2 ft fl = true := by
  unfold isFileTypeValid_v2
  by_cases hc : VALID_FILE_TYPES_v2.contains ft = true
  · have hm : ft ∈ VALID_FILE_TYPES_v2 := by simpa using hc
    simp [hm]
  · have hprim : (getPrimaryFileType_v2 ft).isSome = true := by
      unfold resolveToken_v2 at hres
      rw [if_neg hc] at hres
      rw [hres]
      rfl
    have hsyn : isFileTypeSynonym_v2 ft = true :=
      (synIsSynonym_eq_isSome VALID_FILE_TYPE_SYNONYMS_v2 ft).trans hprim
    simp [hsyn]

/-! ## Claim theorems -/

/-- C3: the shebang resolution of the part_001 script returns the
interpreter name perl for the direct-interpreter line and python for the
env indirection, whose canonical types under VALID_LANG_ASSOC_FILE_TYPES
are pl and py; on any first line without the two-character marker the
resolution, which every call site performs behind the isExecutable guard,
yields null. -/
theorem claim_C3 :
    shebangCanonical_v2 "#!/usr/bin/perl -w" = tableGet VALID_LANG_ASSOC_FILE_TYPES "perl" ∧
    tableGet VALID_LANG_ASSOC_FILE_TYPES "perl" = some "pl" ∧
    resolveFromShebang_v2 "#!/usr/bin/perl -w" = some "perl" ∧
    shebangCanonical_v2 "#!/usr/bin/env python -c" = tableGet VALID_LANG_ASSOC_FILE_TYPES "python" ∧
    tableGet VALID_LANG_ASSOC_FILE_TYPES "python" = some "py" ∧
    resolveFromShebang_v2 "#!/usr/bin/env python -c" = some "python" ∧
    resolveFromShebang_v2 "no shebang here" = none ∧
    (∀ fl : String, ¬ ("#!".toList <:+: fl.toList) →
      resolveFromShebang_v2 fl = none ∧ shebangCanonical_v2 fl = none) := by
  refine ⟨by decide, by decide, by decide, by decide, by decide, by decide, by decide, ?_⟩
  intro fl h
  have hex := isExecutable_eq_false_of_not_infix fl h
  have h1 : resolveFromShebang_v2 fl = none := by
    unfold resolveFromShebang_v2
    rw [hex]
    simp
  refine ⟨h1, ?_⟩
  unfold shebangCanonical_v2
  rw [h1]
  rfl

/-- C3 witness: the general no-marker conjunct applied to the concrete
text of the claim. -/
theorem claim_C3_witness :
    ¬ ("#!".toList <:+: "no shebang here".toList) ∧
    (resolveFromShebang_v2 "no shebang here" = none ∧
      shebangCanonical_v2 "no shebang here" = none) :=
  ⟨by decide, claim_C3.2.2.2.2.2.2.2 "no shebang here" (by decide)⟩

/-- C5: the claim that the pipeline never throws is contradicted by the
code.  In part_002 a shebang makes highlightSyntax call getExecutableType,
which reads the undeclared identifier LANG_NAMES and so throws a
ReferenceError; in the middle part_000 variant isFileTypeValid passes the
object LANG_PRIMARY_FILE_TYPES to Utils.inArray and throws a TypeError on
every input. -/
theorem claim_C5 :
    highlightSyntax_v4 ";a=blob;f=foo.txt" "#!/bin/bash" = .error .referenceError ∧
    getExecutableType_v4 "#!/bin/bash" = .error .referenceError ∧
    getExecutableType_v4 "#!/usr/bin/env python -c" = .error .referenceError ∧
    (∀ ft fl : String, isFileTypeValid_v3 ft fl = .error .typeError) := by
  refine ⟨by decide, by decide, by decide, ?_⟩
  intro ft fl
  rfl

/-- C6: the association expander of src/syntax.js and of part_002 returns
the input type first, followed by exactly the associated types declared
for it (nothing when the input is not a key); in particular html expands
to html, css, js, php and c expands to just c. -/
theorem claim_C6 :
    (∀ t : String, getFileTypeAssocs_v1 (some t) =
        some t :: ((tableGet VALID_FILE_TYPE_ASSOCS_v1 t).getD []).map some) ∧
    (∀ t : String, getFileTypeAssocations_v4 (some t) =
        some t :: ((tableGet FILE_TYPE_ASSOCIATIONS t).getD []).map some) ∧
    getFileTypeAssocs_v1 (some "html") = [some "html", some "css", some "js", some "php"] ∧
    getFileTypeAssocs_v1 (some "c") = [some "c"] ∧
    getFileTypeAssocations_v4 (some "html") = [some "html", some "css", some "js", some "php"] ∧
    getFileTypeAssocations_v4 (some "c") = [some "c"] :=
  ⟨fun t => assocExpandJS_some VALID_FILE_TYPE_ASSOCS_v1 t,
   fun t => assocExpandJS_some FILE_TYPE_ASSOCIATIONS t,
   by decide, by decide, by decide, by decide⟩

/-- C7: end to end on the identifier with the php5 path and no shebang,
both the src/syntax.js pipeline and the part_001 pipeline emit exactly the
languages php, css, html, js. -/
theorem claim_C7 :
    highlightSyntax_v1 ";a=blob;f=lib/app.php5" =
      some [some "php", some "css", some "html", some "js"] ∧
    highlightSyntax_v2 ";a=blob;f=lib/app.php5" "" =
      some [some "php", some "css", some "html", some "js"] ∧
    isExecutable "" = false := by
  refine ⟨by decide, by decide, by decide⟩

/-- C8: the page classifier accepts a query string exactly when it is
non-empty and contains the blob marker as a substring; in particular it
rejects the empty string and accepts the blob identifier of the claim. -/
theorem claim_C8 :
    (∀ qs : String, isFileBlob qs = true ↔ (¬ qs = "" ∧ ";a=blob".toList <:+: qs.toList)) ∧
    isFileBlob "" = false ∧
    isFileBlob ";a=blob;f=src/main.c" = true := by
  refine ⟨?_, by decide, by decide⟩
  intro qs
  have hsep : (";a=blob").toList ≠ ([] : List Char) := by decide
  have hne := jsSplitAux_ne_nil (";a=blob").toList qs.toList.length qs.toList
  have hpos : 0 < (jsSplit ";a=blob".toList qs.toList).length := List.length_pos.mpr hne
  have hb : isFileBlob qs = true ↔ 1 < (jsSplit ";a=blob".toList qs.toList).length := by
    show ((if (splitS ";a=blob" qs).length > 0 then (splitS ";a=blob" qs).length - 1 else 0)
            != 0) = true ↔ _
    simp only [splitS, List.length_map]
    rw [if_pos hpos]
    rw [bne_iff_ne]
    omega
  rw [hb, jsSplit_length_gt_one (";a=blob").toList qs.toList hsep]
  constructor
  · intro hinf
    refine ⟨?_, hinf⟩
    intro hq
    rw [string_eq_empty_iff] at hq
    rw [hq] at hinf
    exact hsep (List.infix_nil.mp hinf)
  · exact And.right

/-- C9: in both synonym tables of the source, the synonym arrays of rows
with distinct canonical keys are pairwise disjoint. -/
theorem claim_C9 :
    (∀ p ∈ VALID_FILE_TYPE_SYNONYMS_v1, ∀ q ∈ VALID_FILE_TYPE_SYNONYMS_v1,
        p.1 ≠ q.1 → ∀ a ∈ p.2, a ∉ q.2) ∧
    (∀ p ∈ LANG_FILE_TYPE_SYNONYMS, ∀ q ∈ LANG_FILE_TYPE_SYNONYMS,
        p.1 ≠ q.1 → ∀ a ∈ p.2, a ∉ q.2) := by decide

/-- C9 witness: the disjointness statement applied to the c and html rows
of the src/syntax.js table at the token cpp. -/
theorem claim_C9_witness : ("cpp" : String) ∉ (["htm", "dhtml", "xhtml"] : List String) :=
  claim_C9.1 ("c", ["cpp", "h"]) (by decide) ("html", ["htm", "dhtml", "xhtml"]) (by decide)
    (by decide) "cpp" (by decide)

/-- C10: on every token, the synonym predicate of src/syntax.js agrees
with definedness of the synonym-to-primary lookup, both scanning the same
table in the same order. -/
theorem claim_C10 (t : String) :
    isFileTypeSynonym_v1 t = (getPrimaryFileType_v1 t).isSome :=
  synIsSynonym_eq_isSome VALID_FILE_TYPE_SYNONYMS_v1 t

/-- C1 counterexample: an unrecognized interpreter with a recognized js
extension.  The marker is present, the shebang resolution is null, the
extension resolution is js, yet the final file type handed to the
association expansion is undefined, not js. -/
theorem claim_C1_counterexample :
    isExecutable "#!/usr/bin/node" = true ∧
    resolveFromShebang_v2 "#!/usr/bin/node" = none ∧
    resolveFromPath_v2 ";a=blob;f=app.js" = some "js" ∧
    ¬ finalFileType_v2 ";a=blob;f=app.js" "#!/usr/bin/node" = some (some "js") ∧
    finalFileType_v2 ";a=blob;f=app.js" "#!/usr/bin/node" = some none := by decide

/-- C1 as amended: when the first line carries the marker but the shebang
resolution is null while the extension resolves to some type, the final
file type handed to the association expansion is the undefined result of
indexing VALID_LANG_ASSOC_FILE_TYPES with null, and the emitted languages
array is the singleton holding that undefined value. -/
theorem claim_C1_amended (qs fl t : String)
    (hmark : isExecutable fl = true)
    (hshe : resolveFromShebang_v2 fl = none)
    (hext : resolveFromPath_v2 qs = some t) :
    finalFileType_v2 qs fl = some none ∧ highlightSyntax_v2 qs fl = some [none] := by
  have hfinal : finalFileType_v2 qs fl = some none := by
    rcases hft : extFileType qs with _ | ft
    · rw [resolveFromPath_v2, hft] at hext
      simp at hext
    · have hres : resolveToken_v2 ft = some t := by
        rw [resolveFromPath_v2, hft] at hext
        simpa using hext
      have hvalid := isFileTypeValid_v2_of_resolveToken ft t fl hres
      unfold finalFileType_v2
      rw [hft]
      simp [hvalid, hmark, hshe]
  refine ⟨hfinal, ?_⟩
  unfold highlightSyntax_v2
  rw [hfinal]
  rfl

/-- C1 witness: the amended statement at the concrete counterexample
input. -/
theorem claim_C1_witness :
    isExecutable "#!/usr/bin/node" = true ∧
    resolveFromShebang_v2 "#!/usr/bin/node" = none ∧
    resolveFromPath_v2 ";a=blob;f=app.js" = some "js" ∧
    (finalFileType_v2 ";a=blob;f=app.js" "#!/usr/bin/node" = some none ∧
      highlightSyntax_v2 ";a=blob;f=app.js" "#!/usr/bin/node" = some [none]) :=
  ⟨by decide, by decide, by decide,
   claim_C1_amended ";a=blob;f=app.js" "#!/usr/bin/node" "js" (by decide) (by decide) (by decide)⟩

/-- C2: whenever the extension resolves to a type and the shebang resolves
to a different canonical type, the final file type of the part_001
pipeline is the canonical type of the shebang; in particular a txt path
with a bash shebang makes the highlighter receive the expansion of sh, the
canonical type of bash. -/
theorem claim_C2 :
    (∀ qs fl t c : String,
        resolveFromPath_v2 qs = some t →
        shebangCanonical_v2 fl = some c →
        c ≠ t →
        finalFileType_v2 qs fl = some (some c) ∧
          highlightSyntax_v2 qs fl = some (getFileTypeAssocs_v2 (some c))) ∧
    highlightSyntax_v2 ";a=blob;f=foo.txt" "#!/bin/bash" = some [some "sh"] ∧
    shebangCanonical_v2 "#!/bin/bash" = some "sh" ∧
    getFileTypeAssocs_v2 (some "sh") = [some "sh"] := by
  refine ⟨?_, by decide, by decide, by decide⟩
  intro qs fl t c hext hshe hne
  have hmark : isExecutable fl = true := by
    cases hex : isExecutable fl
    · unfold shebangCanonical_v2 resolveFromShebang_v2 at hshe
      rw [hex] at hshe
      simp at hshe
    · rfl
  have hfinal : finalFileType_v2 qs fl = some (some c) := by
    rcases hft : extFileType qs with _ | ft
    · rw [resolveFromPath_v2, hft] at hext
      simp at hext
    · have hres : resolveToken_v2 ft = some t := by
        rw [resolveFromPath_v2, hft] at hext
        simpa using hext
      have hvalid := isFileTypeValid_v2_of_resolveToken ft t fl hres
      unfold shebangCanonical_v2 at hshe
      unfold finalFileType_v2
      rw [hft]
      simp [hvalid, hmark, hshe]
  refine ⟨hfinal, ?_⟩
  unfold highlightSyntax_v2
  rw [hfinal]
  rfl

/-- C2 witness: the general statement at a pl extension overridden by a
python shebang. -/
theorem claim_C2_witness :
    resolveFromPath_v2 ";a=blob;f=a.pl" = some "pl" ∧
    shebangCanonical_v2 "#!/usr/bin/env python -c" = some "py" ∧
    ("py" : String) ≠ "pl" ∧
    (finalFileType_v2 ";a=blob;f=a.pl" "#!/usr/bin/env python -c" = some (some "py") ∧
      highlightSyntax_v2 ";a=blob;f=a.pl" "#!/usr/bin/env python -c" =
        some (getFileTypeAssocs_v2 (some "py"))) :=
  ⟨by decide, by decide, by decide,
   claim_C2.1 ";a=blob;f=a.pl" "#!/usr/bin/env python -c" "pl" "py"
     (by decide) (by decide) (by decide)⟩

/-- C4 counterexample: the token json is listed among the synonyms of js,
yet a path ending in .json resolves to json itself, because json is also a
valid file type and that check runs first. -/
theorem claim_C4_counterexample :
    ("js", ["jse", "json"]) ∈ VALID_FILE_TYPE_SYNONYMS_v1 ∧
    ("json" : String) ∈ (["jse", "json"] : List String) ∧
    resolveFromPath_v1 ";a=blob;f=a.json" = some "json" ∧
    ¬ resolveFromPath_v1 ";a=blob;f=a.json" = some "js" := by decide

/-- C4 as amended: the lookup order of the src/syntax.js resolver is as
described, but the synonym-set roundtrip only holds for tokens that are
not themselves valid file types: a token that is a valid file type is
returned unchanged, a non-valid token found in a synonym set resolves to
the key of that set, and a token that is neither resolves to null. -/
theorem claim_C4_amended :
    (∀ tok : String, VALID_FILE_TYPES_v1.contains tok = true → resolveToken_v1 tok = some tok) ∧
    (∀ p ∈ VALID_FILE_TYPE_SYNONYMS_v1, ∀ tok ∈ p.2,
        VALID_FILE_TYPES_v1.contains tok = false → resolveToken_v1 tok = some p.1) ∧
    (∀ tok : String, VALID_FILE_TYPES_v1.contains tok = false →
        isFileTypeSynonym_v1 tok = false → resolveToken_v1 tok = none) := by
  refine ⟨?_, by decide, ?_⟩
  · intro tok h
    unfold resolveToken_v1
    rw [if_pos h]
  · intro tok h1 h2
    unfold resolveToken_v1
    have hcne : ¬ VALID_FILE_TYPES_v1.contains tok = true := by rw [h1]; simp
    rw [if_neg hcne]
    have h3 : (synPrimary VALID_FILE_TYPE_SYNONYMS_v1 tok).isSome = false := by
      rw [← synIsSynonym_eq_isSome]
      exact h2
    show synPrimary VALID_FILE_TYPE_SYNONYMS_v1 tok = none
    exact Option.not_isSome_iff_eq_none.mp (by rw [h3]; simp)

/-- C4 witness: the three amended clauses at the tokens php, cpp and
txt. -/
theorem claim_C4_witness :
    resolveToken_v1 "php" = some "php" ∧
    resolveToken_v1 "cpp" = some "c" ∧
    resolveToken_v1 "txt" = none :=
  ⟨claim_C4_amended.1 "php" (by decide),
   claim_C4_amended.2.1 ("c", ["cpp", "h"]) (by decide) "cpp" (by decide) (by decide),
   claim_C4_amended.2.2 "txt" (by decide) (by decide)⟩
